import Mathlib

/-
  Verification development for the sv2vhdl resolver plugin
  (src/lib/sv2vhdl/resolver.c).

  C strings are modelled as lists of byte values (`List Nat`); the
  terminating NUL is implicit (C strings cannot contain byte 0, and no
  claim depends on embedded NULs).  Fixed-size C buffers filled through
  `safe_copy`/`snprintf` become `List.take (size - 1)`.  The global
  linked list `g_nets` becomes a `List Net` threaded through the
  functions; `find_or_create_net` prepends on creation exactly as the C
  code does.  Logging (`vhpi_printf`) has no effect on the data and is
  dropped; a failed `net_add_endpoint` is modelled by its boolean result.
-/

/-- ASCII byte constants used by the embedding: only arithmetic on `Nat`. -/
def lowByte (c : Nat) : Nat := if 65 ≤ c ∧ c ≤ 90 then c + 32 else c

/-- Convert a Lean string literal into the byte-list model of a C string. -/
def cstr (s : String) : List Nat := s.toList.map Char.toNat

/-- Embedding of `streqi` (resolver.c:99): case-insensitive string equality.
The C loop runs while both strings have bytes left and compares
`tolower` of each; at the end it compares the current bytes (both NUL
iff both lists are exhausted). -/
def streqi : List Nat → List Nat → Bool
  | [], [] => true
  | a :: as, b :: bs => lowByte a == lowByte b && streqi as bs
  | _, _ => false

/-- Embedding of `safe_copy` (resolver.c:109): copy at most `dstsz - 1`
bytes and NUL-terminate; a NULL source yields the empty string (callers
below always pass a present source or a fallback). -/
def safe_copy (src : List Nat) (dstsz : Nat) : List Nat := src.take (dstsz - 1)

/-- `MAX_NAME` (resolver.c:43). -/
def MAX_NAME : Nat := 512

/-- `MAX_TYPE` (resolver.c:44). -/
def MAX_TYPE : Nat := 128

/-- `MAX_ENDPOINTS` (resolver.c:62). -/
def MAX_ENDPOINTS : Nat := 64

/-- The leading `while (*src == ':' || *src == '@') src++;` loop of
`vhpi_to_ename` (resolver.c:129). Byte 58 is `:` and byte 64 is `@`. -/
def dropLeadingSep : List Nat → List Nat
  | [] => []
  | c :: rest => if c = 58 ∨ c = 64 then dropLeadingSep rest else c :: rest

/-- The per-byte transformation of `vhpi_to_ename`'s copy loop
(resolver.c:138): `:` becomes `.` (byte 46), everything else is
lowercased. -/
def enameMap (c : Nat) : Nat := if c = 58 then 46 else lowByte c

/-- Embedding of `vhpi_to_ename` (resolver.c:124): strip leading `:`/`@`,
emit a leading dot, replace `:` by `.` and lowercase, all bounded by the
destination buffer of size `esz` (so at most `esz - 1` bytes are
written before the NUL). -/
def vhpi_to_ename (src : List Nat) (esz : Nat) : List Nat :=
  (46 :: (dropLeadingSep src).map enameMap).take (esz - 1)

/-- `vhpi_to_ename` as used with a `MAX_NAME` buffer (the only way the
plugin calls it). -/
def normalizePath (src : List Nat) : List Nat := vhpi_to_ename src MAX_NAME

/-- Embedding of `endpoint_t` (resolver.c:67). -/
structure Endpoint where
  driver_ename : List Nat
  receiver_ename : List Nat
  type_name : List Nat
deriving DecidableEq, Repr

/-- Embedding of `net_info_t` (resolver.c:77); the fixed array plus
`n_endpoints` becomes a list (its length is `n_endpoints`), and the
`next` pointer becomes the position in the registry list. -/
structure Net where
  net_name : List Nat
  endpoints : List Endpoint
  needs_resolution : Bool
deriving DecidableEq, Repr

/-- Embedding of `net_add_endpoint` (resolver.c:162): refuse (diagnostic
and return -1, modelled as `false`) when `MAX_ENDPOINTS` endpoints are
already present, otherwise append the `safe_copy`-truncated endpoint. -/
def net_add_endpoint (net : Net) (d r t : List Nat) : Net × Bool :=
  if MAX_ENDPOINTS ≤ net.endpoints.length then (net, false)
  else ({ net with endpoints := net.endpoints ++
            [{ driver_ename := safe_copy d MAX_NAME,
               receiver_ename := safe_copy r MAX_NAME,
               type_name := safe_copy t MAX_TYPE }] }, true)

/-- Embedding of `find_or_create_net` (resolver.c:148) as a registry
transformer: scan the list for a `streqi` match; on a miss allocate a
zeroed net with the `safe_copy`-truncated name and PREPEND it
(`n->next = g_nets; g_nets = n;`). -/
def find_or_create_net (r : List Net) (name : List Nat) : List Net :=
  if r.any (fun n => streqi n.net_name name) then r
  else { net_name := safe_copy name MAX_NAME, endpoints := [],
         needs_resolution := false } :: r

/-- Apply `f` to the first element satisfying `p`, keeping the list
structure: this is how the C code mutates the net returned by
`find_or_create_net` in place. -/
def upd_first (p : Net → Bool) (f : Net → Net) : List Net → List Net
  | [] => []
  | n :: rest => if p n then f n :: rest else n :: upd_first p f rest

/-- The `find_or_create_net` + `net_add_endpoint` call pattern of
`scan_instances` (resolver.c:426): find or create the net by name, then
add the endpoint to it in place. -/
def registry_add_endpoint (r : List Net) (name d rcv t : List Nat) : List Net :=
  if r.any (fun n => streqi n.net_name name) then
    upd_first (fun n => streqi n.net_name name)
      (fun n => (net_add_endpoint n d rcv t).1) r
  else
    ((net_add_endpoint
        { net_name := safe_copy name MAX_NAME, endpoints := [],
          needs_resolution := false } d rcv t).1) :: r

/-- Embedding of `analyze_nets` (resolver.c:497): every net's
`needs_resolution` becomes `n_endpoints >= 2`; nets are neither added
nor removed. -/
def analyze_nets (r : List Net) : List Net :=
  r.map (fun n => { n with needs_resolution := decide (2 ≤ n.endpoints.length) })

/-- `strchr` on the byte-list model: split at the first occurrence of
byte `b`, returning the parts before and after it (the byte itself is
consumed), or `none` when absent. -/
def breakAt (b : Nat) : List Nat → Option (List Nat × List Nat)
  | [] => none
  | c :: rest =>
    if c = b then some ([], rest)
    else
      match breakAt b rest with
      | some (pre, post) => some (c :: pre, post)
      | none => none

/-- Embedding of `portmap_lookup` (resolver.c:192), written with an
explicit fuel bound so the recursion is structural: each C loop
iteration consumes at least the `=` byte, so `pm.length + 1` iterations
always suffice (see `portmap_lookup`).  Format `F1=A1;F2=A2;...`: a
segment whose formal matches `formal` case-insensitively yields its
actual (truncated to the destination buffer); otherwise continue after
the `;`; no further `=` or an exhausted string fails with `none`. -/
def portmap_lookup_fuel : Nat → List Nat → List Nat → Nat → Option (List Nat)
  | 0, _, _, _ => none
  | fuel + 1, pm, formal, dstsz =>
    match breakAt 61 pm with
    | none => none
    | some (fname, rest) =>
      match breakAt 59 rest with
      | some (actual, remainder) =>
        if streqi fname formal then some (actual.take (dstsz - 1))
        else portmap_lookup_fuel fuel remainder formal dstsz
      | none =>
        if streqi fname formal then some (rest.take (dstsz - 1)) else none

/-- Embedding of `portmap_lookup` (resolver.c:192). -/
def portmap_lookup (pm formal : List Nat) (dstsz : Nat) : Option (List Nat) :=
  portmap_lookup_fuel (pm.length + 1) pm formal dstsz

/-- `tran_entities` (resolver.c:48). -/
def tran_entities : List (List Nat) :=
  [cstr ("SV_TRAN"), cstr ("SV_TRANIF0"), cstr ("SV_TRANIF1"),
   cstr ("SV_RTRAN"), cstr ("SV_RTRANIF0"), cstr ("SV_RTRANIF1")]

/-- Embedding of `is_tran_entity` (resolver.c:178). -/
def is_tran_entity (e : List Nat) : Bool :=
  tran_entities.any (fun t => streqi e t)

/-- `snprintf(buf, MAX_NAME, "%s.%s", a, b)`: join with a dot, truncated
to the 511 bytes that fit in the buffer. -/
def joinDot (a b : List Nat) : List Nat := (a ++ 46 :: b).take (MAX_NAME - 1)

/-- One port of an instance as exposed by VHPI: its name (`vhpi_get_str`
may fail), whether its mode is `vhpiInoutMode`, the element type
produced by `get_type_info` (resolver.c:258), and the value of the NVC
extension `nvc_vhpi_get_driver_type` for this port (NULL or a string).
These are external inputs to `scan_instances`. -/
structure Port where
  pname : Option (List Nat)
  inout : Bool
  portEType : List Nat
  driverType : Option (List Nat)
deriving DecidableEq, Repr

/-- One component instance as exposed by VHPI: name, entity (primary
unit) name, the serialized port map from `nvc_vhpi_get_port_map` (NULL
or a string), and its port declarations. External input to
`scan_instances`. -/
structure InstanceDesc where
  iname : Option (List Nat)
  entity : Option (List Nat)
  portmap : Option (List Nat)
  ports : List Port
deriving DecidableEq, Repr

/-- A signal declaration of a region (name and declared vector length)
as the hierarchy source exposes it.  The resolver's hierarchy walk
never queries signal declarations (only the Python bridge function
`py_vhpi_get_signals` does, outside the walk), so `walk_hierarchy`
below never reads this data. -/
structure SigDecl where
  sname : List Nat
  size : Nat
deriving DecidableEq, Repr

/-- The `vhpiKindP` of a sub-region as tested at resolver.c:479:
`vhpiCompInstStmtK`, `vhpiRootInstK`, or anything else (generate/block
statements). -/
inductive RKind where
  | compInst
  | rootInst
  | block
deriving DecidableEq, Repr

/-- A region of the elaborated hierarchy: name, kind, its signal
declarations (never read by the walk), its component instances and its
internal regions. -/
inductive Region where
  | mk : Option (List Nat) → RKind → List SigDecl → List InstanceDesc →
         List Region → Region

/-- Name of a region. -/
def Region.rname : Region → Option (List Nat)
  | .mk n _ _ _ _ => n

/-- Kind of a region. -/
def Region.kind : Region → RKind
  | .mk _ k _ _ _ => k

/-- Signal declarations of a region. -/
def Region.sigs : Region → List SigDecl
  | .mk _ _ s _ _ => s

/-- Instances of a region. -/
def Region.insts : Region → List InstanceDesc
  | .mk _ _ _ i _ => i

/-- Child regions of a region. -/
def Region.children : Region → List Region
  | .mk _ _ _ _ c => c

/-- The body of the inner port loop of `scan_instances`
(resolver.c:365-436) for one port: skip non-inout ports, ports without
a name and ports absent from the port map; otherwise resolve the
element type (driver type if the NVC extension supplies one, else the
port's own element type, through a `MAX_TYPE` buffer), lowercase the
port name and the actual, build the net name from `sig_pfx` and the
endpoint enames from the instance ename, and add the endpoint. -/
def scan_port (inst_ename sig_pfx portmap : List Nat) (r : List Net)
    (p : Port) : List Net :=
  if p.inout = false then r
  else
    match p.pname with
    | none => r
    | some pn =>
      let etype := safe_copy (p.driverType.getD p.portEType) MAX_TYPE
      let port_lower := (safe_copy pn MAX_NAME).map lowByte
      match portmap_lookup portmap pn MAX_NAME with
      | none => r
      | some act =>
        let actual := act.map lowByte
        let net_name := joinDot sig_pfx actual
        let drv := (inst_ename ++ 46 :: port_lower ++ cstr (".driver")).take
          (MAX_NAME - 1)
        let rcv := (inst_ename ++ 46 :: port_lower ++ cstr (".other")).take
          (MAX_NAME - 1)
        registry_add_endpoint r net_name drv rcv etype

/-- The body of the instance loop of `scan_instances`
(resolver.c:309-439): build the instance ename from the lowercased
instance name (`?` when the name is unobtainable), skip instances whose
entity is unknown or not tran-like and instances without a port map,
then process every port. -/
def scan_instance (path_pfx sig_pfx : List Nat) (r : List Net)
    (inst : InstanceDesc) : List Net :=
  let inst_lower := (safe_copy (inst.iname.getD (cstr ("?"))) MAX_NAME).map lowByte
  let inst_ename := joinDot path_pfx inst_lower
  match inst.entity with
  | none => r
  | some e =>
    if is_tran_entity e = false then r
    else
      match inst.portmap with
      | none => r
      | some pm => inst.ports.foldl (scan_port inst_ename sig_pfx pm) r

/-- Embedding of `scan_instances` (resolver.c:303): fold the instance
loop over the region's instances.  Only the net registry survives; the
instance counter and all logging are output-only. -/
def scan_instances (insts : List InstanceDesc) (path_pfx sig_pfx : List Nat)
    (r : List Net) : List Net :=
  insts.foldl (scan_instance path_pfx sig_pfx) r

mutual

/-- Embedding of `walk_hierarchy` (resolver.c:449): scan the region's
instances, then recurse into each internal region with the extended
structural path; the signal-scope path follows the structural path only
into `vhpiCompInstStmtK`/`vhpiRootInstK` children and is otherwise kept
(generate/block statements).  Signal declarations are never read. -/
def walk_hierarchy : Region → List Nat → List Nat → List Net → List Net
  | .mk _ _ _ insts children, path_pfx, sig_pfx, r =>
    walk_children children path_pfx sig_pfx
      (scan_instances insts path_pfx sig_pfx r)

/-- The child loop of `walk_hierarchy` (resolver.c:461-490). -/
def walk_children : List Region → List Nat → List Nat → List Net → List Net
  | [], _, _, r => r
  | sub :: rest, path_pfx, sig_pfx, r =>
    let sub_lower := (safe_copy (sub.rname.getD (cstr ("?"))) MAX_NAME).map lowByte
    let sub_path := joinDot path_pfx sub_lower
    let sub_sig :=
      match sub.kind with
      | .compInst => sub_path
      | .rootInst => sub_path
      | .block => sig_pfx
    walk_children rest path_pfx sig_pfx
      (walk_hierarchy sub sub_path sub_sig r)

end

/- ---------- Path normalization (PathNormalizer, claim C7) ---------- -/

theorem lowByte_lowByte (c : Nat) : lowByte (lowByte c) = lowByte c := by
  unfold lowByte
  by_cases h : 65 ≤ c ∧ c ≤ 90
  · rw [if_pos h, if_neg (by omega)]
  · rw [if_neg h, if_neg h]

theorem lowByte_eq_58 (x : Nat) : lowByte x = 58 ↔ x = 58 := by
  unfold lowByte
  split <;> omega

theorem enameMap_enameMap (c : Nat) : enameMap (enameMap c) = enameMap c := by
  unfold enameMap
  by_cases h : c = 58
  · subst h
    norm_num [lowByte]
  · have h2 : lowByte c ≠ 58 := fun hh => h ((lowByte_eq_58 c).mp hh)
    rw [if_neg h, if_neg h2, lowByte_lowByte]

theorem map_enameMap_idem (l : List Nat) :
    (l.map enameMap).map enameMap = l.map enameMap := by
  rw [List.map_map]
  exact List.map_congr_left (fun a _ => enameMap_enameMap a)

theorem norm_eq (p : List Nat) :
    normalizePath p = 46 :: ((dropLeadingSep p).map enameMap).take 510 := rfl

theorem take511_cons (a : Nat) (l : List Nat) :
    (a :: l).take 511 = a :: l.take 510 := rfl

theorem dropLeadingSep_dot (l : List Nat) :
    dropLeadingSep (46 :: l) = 46 :: l := by
  simp [dropLeadingSep]

theorem map_ename_norm (p : List Nat) :
    (dropLeadingSep (normalizePath p)).map enameMap =
      46 :: ((dropLeadingSep p).map enameMap).take 510 := by
  rw [norm_eq, dropLeadingSep_dot, List.map_cons]
  rw [List.map_take, map_enameMap_idem]
  rfl

theorem lowByte_sep_iff (x y : Nat) (h : lowByte x = lowByte y) :
    (x = 58 ∨ x = 64) ↔ (y = 58 ∨ y = 64) := by
  unfold lowByte at h
  split at h <;> split at h <;> omega

theorem map_ename_of_map_low :
    ∀ a b : List Nat, a.map lowByte = b.map lowByte →
      a.map enameMap = b.map enameMap := by
  intro a
  induction a with
  | nil =>
    intro b h
    cases b with
    | nil => rfl
    | cons d bs => simp at h
  | cons c as ih =>
    intro b h
    cases b with
    | nil => simp at h
    | cons d bs =>
      simp only [List.map_cons, List.cons.injEq] at h
      simp only [List.map_cons, List.cons.injEq]
      refine ⟨?_, ih bs h.2⟩
      unfold enameMap
      have h58 : c = 58 ↔ d = 58 := by
        rw [← lowByte_eq_58 c, ← lowByte_eq_58 d, h.1]
      rcases h with ⟨h1, -⟩
      split <;> split <;> omega

theorem drop_of_map_low :
    ∀ a b : List Nat, a.map lowByte = b.map lowByte →
      (dropLeadingSep a).map enameMap = (dropLeadingSep b).map enameMap := by
  intro a
  induction a with
  | nil =>
    intro b h
    cases b with
    | nil => rfl
    | cons d bs => simp at h
  | cons c as ih =>
    intro b h
    cases b with
    | nil => simp at h
    | cons d bs =>
      simp only [List.map_cons, List.cons.injEq] at h
      have hsep := lowByte_sep_iff c d h.1
      unfold dropLeadingSep
      by_cases hc : c = 58 ∨ c = 64
      · rw [if_pos hc, if_pos (hsep.mp hc)]
        exact ih bs h.2
      · rw [if_neg hc, if_neg (fun hd => hc (hsep.mpr hd))]
        exact map_ename_of_map_low _ _
          (by simp only [List.map_cons, List.cons.injEq]; exact h)

/-- C7 (amended).  `vhpi_to_ename` with a `MAX_NAME` buffer is total
(output bounded by 511 bytes, always starting with a dot) and
case-insensitive-stable, but it is NOT idempotent: re-normalizing an
already normalized path prepends one more leading dot (truncated to the
buffer), because the strip loop removes only `:` and `@`, never `.`. -/
theorem c7_normalize_amended :
    (∀ p : List Nat, (normalizePath p).length ≤ 511 ∧
      (normalizePath p).take 1 = [46]) ∧
    (∀ p : List Nat,
      normalizePath (normalizePath p) = (46 :: normalizePath p).take 511) ∧
    (∀ a b : List Nat, a.map lowByte = b.map lowByte →
      normalizePath a = normalizePath b) := by
  refine ⟨fun p => ⟨?_, ?_⟩, fun p => ?_, fun a b h => ?_⟩
  · rw [show normalizePath p = (46 :: (dropLeadingSep p).map enameMap).take 511
        from rfl]
    simp [List.length_take]
  · rw [norm_eq]
    rfl
  · rw [norm_eq (normalizePath p), map_ename_norm, take511_cons, norm_eq p]
  · show (46 :: (dropLeadingSep a).map enameMap).take 511 =
      (46 :: (dropLeadingSep b).map enameMap).take 511
    rw [drop_of_map_low a b h]

/-- Witness for C7 (amended): the two spellings `:TOP:SIG` and
`:top:sig` of testable property 2 normalize identically. -/
theorem c7_normalize_amended_witness :
    (cstr (":TOP:SIG")).map lowByte = (cstr (":top:sig")).map lowByte ∧
    normalizePath (cstr (":TOP:SIG")) = normalizePath (cstr (":top:sig")) :=
  ⟨by decide, c7_normalize_amended.2.2 (cstr (":TOP:SIG")) (cstr (":top:sig"))
    (by decide)⟩

/-- Counterexample for C7 as stated: normalization is not idempotent;
normalizing `:A` gives `.a` but normalizing `.a` gives `..a`. -/
theorem c7_idempotence_counterexample :
    normalizePath (normalizePath (cstr (":A"))) ≠ normalizePath (cstr (":A")) ∧
    normalizePath (cstr (":A")) = cstr (".a") ∧
    normalizePath (normalizePath (cstr (":A"))) = cstr ("..a") := by
  refine ⟨?_, by decide, by decide⟩
  decide

/- ---------- Registry basics (claims C9, C10, C8, C2, C1) ---------- -/

theorem streqi_refl : ∀ a : List Nat, streqi a a = true := by
  intro a
  induction a with
  | nil => rfl
  | cons c as ih => simp [streqi, ih]

theorem streqi_length : ∀ a b : List Nat, streqi a b = true → a.length = b.length := by
  intro a
  induction a with
  | nil =>
    intro b h
    cases b with
    | nil => rfl
    | cons d bs => simp [streqi] at h
  | cons c as ih =>
    intro b h
    cases b with
    | nil => simp [streqi] at h
    | cons d bs =>
      simp only [streqi, Bool.and_eq_true] at h
      simp [ih bs h.2]

/-- C9. The endpoint array of a net is bounded by `MAX_ENDPOINTS` (64):
adding to a full net returns the net unchanged with a failure result
(the C code prints a diagnostic and returns -1), adding to a non-full
net appends exactly one endpoint and succeeds, no add pushes the count
past 64, and a full net stays in the registry untouched when an
endpoint for it is encountered. -/
theorem c9_endpoint_cap (net : Net) (d r t : List Nat) :
    (MAX_ENDPOINTS ≤ net.endpoints.length →
      net_add_endpoint net d r t = (net, false)) ∧
    (net.endpoints.length < MAX_ENDPOINTS →
      (net_add_endpoint net d r t).1.endpoints.length =
        net.endpoints.length + 1 ∧
      (net_add_endpoint net d r t).2 = true) ∧
    (net.endpoints.length ≤ MAX_ENDPOINTS →
      (net_add_endpoint net d r t).1.endpoints.length ≤ MAX_ENDPOINTS) ∧
    (MAX_ENDPOINTS ≤ net.endpoints.length →
      registry_add_endpoint [net] net.net_name d r t = [net]) := by
  refine ⟨fun h => ?_, fun h => ?_, fun h => ?_, fun h => ?_⟩
  · simp [net_add_endpoint, if_pos h]
  · constructor
    · simp [net_add_endpoint, if_neg (by omega : ¬ MAX_ENDPOINTS ≤ net.endpoints.length)]
    · simp [net_add_endpoint, if_neg (by omega : ¬ MAX_ENDPOINTS ≤ net.endpoints.length)]
  · by_cases hlt : net.endpoints.length < MAX_ENDPOINTS
    · simp [net_add_endpoint, if_neg (by omega : ¬ MAX_ENDPOINTS ≤ net.endpoints.length)]
      omega
    · simp [net_add_endpoint, if_pos (by omega : MAX_ENDPOINTS ≤ net.endpoints.length)]
      omega
  · simp [registry_add_endpoint, upd_first, streqi_refl, net_add_endpoint, if_pos h]

/-- A net whose endpoint array is already full, for the C9 witness. -/
def c9_full_net : Net :=
  { net_name := cstr ("n"),
    endpoints := List.replicate MAX_ENDPOINTS
      { driver_ename := [], receiver_ename := [], type_name := [] },
    needs_resolution := false }

/-- Witness for C9 at a net with exactly 64 endpoints. -/
theorem c9_endpoint_cap_witness :
    net_add_endpoint c9_full_net [] [] [] = (c9_full_net, false) ∧
    registry_add_endpoint [c9_full_net] c9_full_net.net_name [] [] [] =
      [c9_full_net] :=
  ⟨(c9_endpoint_cap c9_full_net [] [] []).1 (by decide),
   (c9_endpoint_cap c9_full_net [] [] []).2.2.2 (by decide)⟩

/-- C10 (amended). Every string stored in a net is silently truncated:
net names, driver and receiver references to 511 bytes, type names to
127 bytes, with no error.  But `find_or_create_net` compares the
(truncated) stored name against the FULL incoming name with `streqi`,
which only succeeds on equal lengths — so a name longer than 511 bytes
never matches any stored name, and every find-or-create with such a
name creates a fresh duplicate net instead of merging. -/
theorem c10_truncation_amended :
    (∀ name d r t : List Nat,
      registry_add_endpoint [] name d r t =
        [{ net_name := name.take 511,
           endpoints := [{ driver_ename := d.take 511,
                           receiver_ename := r.take 511,
                           type_name := t.take 127 }],
           needs_resolution := false }]) ∧
    (∀ r : List Net, ∀ s : List Nat,
      (∃ n ∈ r, streqi n.net_name s = true) → find_or_create_net r s = r) ∧
    (∀ a b : List Nat, streqi a b = true → a.length = b.length) ∧
    (∀ r : List Net, ∀ s : List Nat, 511 < s.length →
      (∀ n ∈ r, n.net_name.length ≤ 511) →
      find_or_create_net r s =
        { net_name := s.take 511, endpoints := [],
          needs_resolution := false } :: r) := by
  refine ⟨fun name d r t => ?_, fun r s h => ?_, streqi_length, fun r s hlen hinv => ?_⟩
  · rfl
  · obtain ⟨n, hn, hs⟩ := h
    have : r.any (fun n => streqi n.net_name s) = true :=
      List.any_eq_true.mpr ⟨n, hn, hs⟩
    simp [find_or_create_net, this]
  · have hany : r.any (fun n => streqi n.net_name s) = false := by
      rw [List.any_eq_false]
      intro n hn
      intro hs
      have := streqi_length _ _ hs
      have := hinv n hn
      omega
    simp [find_or_create_net, hany, safe_copy, MAX_NAME]

/-- Witness for C10 (amended), exercising the merge branch and the
511-byte truncation at concrete inputs. -/
theorem c10_truncation_amended_witness :
    registry_add_endpoint [] (cstr ("x")) (cstr ("d")) (cstr ("r")) (cstr ("t")) =
      [{ net_name := (cstr ("x")).take 511,
         endpoints := [{ driver_ename := (cstr ("d")).take 511,
                         receiver_ename := (cstr ("r")).take 511,
                         type_name := (cstr ("t")).take 127 }],
         needs_resolution := false }] ∧
    find_or_create_net
      [{ net_name := cstr ("x"), endpoints := [], needs_resolution := false }]
      (cstr ("X")) =
      [{ net_name := cstr ("x"), endpoints := [], needs_resolution := false }] :=
  ⟨(c10_truncation_amended.1 (cstr ("x")) (cstr ("d")) (cstr ("r")) (cstr ("t"))),
   (c10_truncation_amended.2.1
     [{ net_name := cstr ("x"), endpoints := [], needs_resolution := false }]
     (cstr ("X"))
     ⟨{ net_name := cstr ("x"), endpoints := [], needs_resolution := false },
       by simp, by decide⟩)⟩

/-- A canonical name one byte longer than the 511 bytes that fit in a
`MAX_NAME` buffer. -/
def c10_long : List Nat := List.replicate 512 97

set_option maxRecDepth 40000 in
/-- Counterexample for C10 as stated: adding endpoints under the same
512-byte canonical name twice produces TWO single-endpoint registry
entries (the truncated stored name never `streqi`-matches the full
probe), not one merged net. -/
theorem c10_long_name_counterexample :
    ((registry_add_endpoint (registry_add_endpoint [] c10_long [] [] [])
        c10_long [] [] []).map (fun n => n.endpoints.length)) = [1, 1] := by
  decide

/-- First-creation order of the registry built by a sequence of
`find_or_create_net` calls: the (truncated) name of each net in the
order in which it was first created, given the stored names already
`seen`. -/
def firstCreated (seen : List (List Nat)) : List (List Nat) → List (List Nat)
  | [] => []
  | n :: ns =>
    if seen.any (fun s => streqi s n) then firstCreated seen ns
    else n.take 511 :: firstCreated (n.take 511 :: seen) ns

theorem foc_foldl_names :
    ∀ (ns : List (List Nat)) (r : List Net),
      (List.foldl find_or_create_net r ns).map Net.net_name =
        (firstCreated (r.map Net.net_name) ns).reverse ++ r.map Net.net_name := by
  intro ns
  induction ns with
  | nil => intro r; simp [firstCreated]
  | cons n ns ih =>
    intro r
    rw [List.foldl_cons]
    have hcond : (r.any fun net => streqi net.net_name n) =
        ((r.map Net.net_name).any fun s => streqi s n) := by
      induction r with
      | nil => rfl
      | cons m ms ihm => simp [List.any_cons, List.map_cons, ihm]
    by_cases hc : (r.map Net.net_name).any (fun s => streqi s n) = true
    · rw [show find_or_create_net r n = r from by
        simp [find_or_create_net, hcond, hc]]
      rw [ih r]
      simp [firstCreated, hc]
    · have hc2 : (r.map Net.net_name).any (fun s => streqi s n) = false := by
        simpa using hc
      rw [show find_or_create_net r n =
          { net_name := safe_copy n MAX_NAME, endpoints := [],
            needs_resolution := false } :: r from by
        simp [find_or_create_net, hcond, hc2]]
      rw [ih]
      simp [firstCreated, hc2, safe_copy, MAX_NAME]

/-- C8 (amended). The registry built from a sequence of find-or-create
operations, iterated the way `print_report` and `call_python_resolver`
iterate it (head first), lists the nets in REVERSE first-creation
order: `find_or_create_net` prepends every newly created net. -/
theorem c8_reverse_insertion_order (ns : List (List Nat)) :
    (List.foldl find_or_create_net [] ns).map Net.net_name =
      (firstCreated [] ns).reverse := by
  have h := foc_foldl_names ns []
  simpa using h

/-- Counterexample for C8 as stated: creating net `a` and then net `b`
yields iteration order `[b, a]`, the reverse of creation order
`[a, b]`. -/
theorem c8_order_counterexample :
    (List.foldl find_or_create_net [] [cstr ("a"), cstr ("b")]).map Net.net_name =
      [cstr ("b"), cstr ("a")] ∧
    ([cstr ("b"), cstr ("a")] : List (List Nat)) ≠ [cstr ("a"), cstr ("b")] := by
  refine ⟨by decide, by decide⟩

/-- C2. After `analyze_nets`, a net's `needs_resolution` is true iff it
has at least two endpoints; a single-endpoint net is left `false`; and
every net of the registry is still present (same name, same endpoints)
— classification drops nothing. -/
theorem c2_classification (r : List Net) :
    (∀ n ∈ analyze_nets r, n.needs_resolution = true ↔ 2 ≤ n.endpoints.length) ∧
    (∀ n ∈ analyze_nets r, n.endpoints.length = 1 →
      n.needs_resolution = false) ∧
    (∀ n ∈ r, ∃ m ∈ analyze_nets r, m.net_name = n.net_name ∧
      m.endpoints = n.endpoints) := by
  refine ⟨?_, ?_, ?_⟩
  · intro n hn
    simp only [analyze_nets, List.mem_map] at hn
    obtain ⟨m, hm, rfl⟩ := hn
    simp
  · intro n hn hlen
    simp only [analyze_nets, List.mem_map] at hn
    obtain ⟨m, hm, rfl⟩ := hn
    simp at hlen ⊢
    omega
  · intro n hn
    exact ⟨{ n with needs_resolution := decide (2 ≤ n.endpoints.length) },
      List.mem_map.mpr ⟨n, hn, rfl⟩, rfl, rfl⟩

/-- A two-endpoint net, before classification, for the C2 witness. -/
def c2_two_net : Net :=
  { net_name := cstr ("x"),
    endpoints := [{ driver_ename := [], receiver_ename := [], type_name := [] },
                  { driver_ename := [], receiver_ename := [], type_name := [] }],
    needs_resolution := false }

/-- The same net as classification leaves it, for the C2 witness. -/
def c2_analyzed : Net := { c2_two_net with needs_resolution := true }

/-- Witness for C2 at a concrete two-endpoint net. -/
theorem c2_classification_witness :
    c2_analyzed.needs_resolution = true ↔ 2 ≤ c2_analyzed.endpoints.length :=
  (c2_classification [c2_two_net]).1 c2_analyzed (by decide)

/-- The region of testable property 3: `.top` declaring the vector
signal pair `w_driver`/`w_others` of length 4, with no instances and no
children. -/
def c1_region : Region :=
  .mk (some (cstr ("TOP"))) .rootInst
    [{ sname := cstr ("w_driver"), size := 4 },
     { sname := cstr ("w_others"), size := 4 }] [] []

/-- C1 (code bug evaluation). The hierarchy walk of resolver.c never
reads signal declarations — `walk_hierarchy`/`scan_instances` only
examine component instances — so the region of testable property 3
produces an EMPTY registry: no net `.top.w` exists, with or without
`needs_resolution`, contradicting the suffix-pairing Strategy A the
spec (and the file's own header comment) describe. -/
theorem c1_walk_ignores_signals :
    walk_hierarchy c1_region (cstr (".top")) (cstr (".top")) [] = [] ∧
    analyze_nets
      (walk_hierarchy c1_region (cstr (".top")) (cstr (".top")) []) = [] :=
  ⟨rfl, rfl⟩

/- ---------- Port-map grouping (claim C3) ---------- -/

theorem joinDot_take511 (a b : List Nat) :
    (joinDot a b).take (MAX_NAME - 1) = joinDot a b := by
  simp [joinDot, List.take_take]

theorem rae_nil (name d r t : List Nat) :
    registry_add_endpoint [] name d r t =
      [{ net_name := name.take 511,
         endpoints := [{ driver_ename := d.take 511,
                         receiver_ename := r.take 511,
                         type_name := t.take 127 }],
         needs_resolution := false }] := rfl

theorem rae_one (n : Net) (name d r t : List Nat)
    (h : streqi n.net_name name = true)
    (hlen : n.endpoints.length < MAX_ENDPOINTS) :
    registry_add_endpoint [n] name d r t =
      [{ n with endpoints := n.endpoints ++
          [{ driver_ename := d.take 511, receiver_ename := r.take 511,
             type_name := t.take 127 }] }] := by
  simp only [registry_add_endpoint, List.any_cons, List.any_nil, h,
    Bool.true_or, if_pos, upd_first, if_true, net_add_endpoint,
    if_neg (by omega : ¬ MAX_ENDPOINTS ≤ n.endpoints.length)]
  rfl

theorem scan_instance_tran (pp sp : List Nat) (r : List Net)
    (i : InstanceDesc) (e pm pn a : List Nat) (p : Port)
    (he : i.entity = some e) (ht : is_tran_entity e = true)
    (hm : i.portmap = some pm) (hp : i.ports = [p])
    (hio : p.inout = true) (hn : p.pname = some pn)
    (hl : portmap_lookup pm pn MAX_NAME = some a) :
    scan_instance pp sp r i =
      registry_add_endpoint r (joinDot sp (a.map lowByte))
        ((joinDot pp ((safe_copy (i.iname.getD (cstr ("?"))) MAX_NAME).map lowByte)
          ++ 46 :: ((safe_copy pn MAX_NAME).map lowByte) ++ cstr (".driver")).take
            (MAX_NAME - 1))
        ((joinDot pp ((safe_copy (i.iname.getD (cstr ("?"))) MAX_NAME).map lowByte)
          ++ 46 :: ((safe_copy pn MAX_NAME).map lowByte) ++ cstr (".other")).take
            (MAX_NAME - 1))
        (safe_copy (p.driverType.getD p.portEType) MAX_TYPE) := by
  simp only [scan_instance, he, hm, hp, List.foldl_cons, List.foldl_nil,
    scan_port, hio, hn, hl, ht, Bool.true_eq_false, if_false,
    Bool.false_eq_true]

/-- C3. Two tran-entity instances visited under the same signal-scope
path whose port maps resolve an inout formal to `streqi`-equal actual
expressions contribute their endpoints to ONE net — named
`sig_scope + "." + lowercased(actual)` — which ends up with two
endpoints, not as two separate single-endpoint nets. -/
theorem c3_portmap_merge
    (pp1 pp2 sp : List Nat) (i1 i2 : InstanceDesc)
    (e1 e2 pm1 pm2 pn1 pn2 a1 a2 : List Nat) (p1 p2 : Port)
    (he1 : i1.entity = some e1) (ht1 : is_tran_entity e1 = true)
    (hm1 : i1.portmap = some pm1) (hp1 : i1.ports = [p1])
    (hio1 : p1.inout = true) (hn1 : p1.pname = some pn1)
    (hl1 : portmap_lookup pm1 pn1 MAX_NAME = some a1)
    (he2 : i2.entity = some e2) (ht2 : is_tran_entity e2 = true)
    (hm2 : i2.portmap = some pm2) (hp2 : i2.ports = [p2])
    (hio2 : p2.inout = true) (hn2 : p2.pname = some pn2)
    (hl2 : portmap_lookup pm2 pn2 MAX_NAME = some a2)
    (hsame : a1.map lowByte = a2.map lowByte) :
    ∃ net : Net,
      scan_instances [i2] pp2 sp (scan_instances [i1] pp1 sp []) = [net] ∧
      net.net_name = joinDot sp (a1.map lowByte) ∧
      net.endpoints.length = 2 := by
  have hs1 : scan_instances [i1] pp1 sp [] = scan_instance pp1 sp [] i1 := rfl
  rw [show scan_instances [i2] pp2 sp (scan_instances [i1] pp1 sp []) =
      scan_instance pp2 sp (scan_instance pp1 sp [] i1) i2 from rfl]
  rw [scan_instance_tran pp1 sp [] i1 e1 pm1 pn1 a1 p1 he1 ht1 hm1 hp1 hio1 hn1 hl1]
  rw [scan_instance_tran pp2 sp _ i2 e2 pm2 pn2 a2 p2 he2 ht2 hm2 hp2 hio2 hn2 hl2]
  rw [rae_nil]
  rw [← hsame]
  rw [rae_one _ _ _ _ _ ?hs ?hl]
  case hs =>
    show streqi ((joinDot sp (a1.map lowByte)).take 511) (joinDot sp (a1.map lowByte)) = true
    rw [show (511 : Nat) = MAX_NAME - 1 from rfl, joinDot_take511]
    exact streqi_refl _
  case hl =>
    simp [MAX_ENDPOINTS]
  refine ⟨_, rfl, ?_, ?_⟩
  · show (joinDot sp (a1.map lowByte)).take 511 = joinDot sp (a1.map lowByte)
    rw [show (511 : Nat) = MAX_NAME - 1 from rfl, joinDot_take511]
  · rfl

/-- First concrete tran instance for the C3 witness: port map
`A=AC(2)`. -/
def c3_inst1 : InstanceDesc :=
  { iname := some (cstr ("T1")), entity := some (cstr ("SV_TRAN")),
    portmap := some (cstr ("A=AC(2)")),
    ports := [{ pname := some (cstr ("A")), inout := true,
                portEType := cstr ("STD_ULOGIC"), driverType := none }] }

/-- Second concrete tran instance for the C3 witness: same actual
`AC(2)`. -/
def c3_inst2 : InstanceDesc :=
  { iname := some (cstr ("T2")), entity := some (cstr ("SV_TRAN")),
    portmap := some (cstr ("A=AC(2)")),
    ports := [{ pname := some (cstr ("A")), inout := true,
                portEType := cstr ("STD_ULOGIC"), driverType := none }] }

/-- Witness for C3: the two concrete instances of testable property 5,
both mapping formal `a` to `ac(2)` under signal scope `.top`. -/
theorem c3_portmap_merge_witness :
    ∃ net : Net,
      scan_instances [c3_inst2] (cstr (".top")) (cstr (".top"))
        (scan_instances [c3_inst1] (cstr (".top")) (cstr (".top")) []) = [net] ∧
      net.net_name = joinDot (cstr (".top")) ((cstr ("AC(2)")).map lowByte) ∧
      net.endpoints.length = 2 :=
  c3_portmap_merge (cstr (".top")) (cstr (".top")) (cstr (".top"))
    c3_inst1 c3_inst2
    (cstr ("SV_TRAN")) (cstr ("SV_TRAN"))
    (cstr ("A=AC(2)")) (cstr ("A=AC(2)"))
    (cstr ("A")) (cstr ("A"))
    (cstr ("AC(2)")) (cstr ("AC(2)"))
    { pname := some (cstr ("A")), inout := true,
      portEType := cstr ("STD_ULOGIC"), driverType := none }
    { pname := some (cstr ("A")), inout := true,
      portEType := cstr ("STD_ULOGIC"), driverType := none }
    rfl (by decide) rfl rfl rfl rfl (by decide)
    rfl (by decide) rfl rfl rfl rfl (by decide)
    rfl

/- ---------- Per-file cache and generation run (claims C5, C6) ---------- -/

/-- `fgets(buf, n+1, f)` on the first line of a file: read bytes up to
and including the first newline, but at most `n` bytes; the C call
returns NULL on an empty file, handled by the caller
(`per_file_cached`). -/
def fgetsAux : Nat → List Nat → List Nat
  | 0, _ => []
  | _ + 1, [] => []
  | n + 1, c :: rest => c :: (if c = 10 then [] else fgetsAux n rest)

/-- The newline strip at resolver.c:1221: drop one trailing `\n` if
present. -/
def stripNl : List Nat → List Nat
  | [] => []
  | [c] => if c = 10 then [] else [c]
  | c :: rest => c :: stripNl rest

/-- The per-file cache test of `start_of_sim` (resolver.c:1208-1233):
an absent or empty existing file is never a hit; otherwise read the
existing file's first line into a 256-byte buffer (so at most 255
bytes), strip a trailing newline, and compare against the first line of
the new text, itself truncated to 255 bytes. -/
def per_file_cached (existing : Option (List Nat)) (vhdl : List Nat) : Bool :=
  match existing with
  | none => false
  | some content =>
    if content.isEmpty then false
    else stripNl (fgetsAux 255 content) ==
      (vhdl.takeWhile (fun c => c != 10)).take 255

/-- The cache directory as an association list from file name to
content (first binding wins, as on a real file system there is one file
per name). -/
def lookupFile : List (List Nat × List Nat) → List Nat → Option (List Nat)
  | [], _ => none
  | (k, v) :: rest, f => if k = f then some v else lookupFile rest f

/-- `fopen(path, "w")` + `fputs` + `fclose`: replace the file's whole
content (write failures are the separately counted error path of the C
code and are not modelled here). -/
def updateFile : List (List Nat × List Nat) → List Nat → List Nat →
    List (List Nat × List Nat)
  | [], f, c => [(f, c)]
  | (k, v) :: rest, f, c =>
    if k = f then (f, c) :: rest else (k, v) :: updateFile rest f c

/-- One iteration of the file loop of `start_of_sim` (resolver.c:1198):
on a cache hit the disk is untouched (`continue`), otherwise the file
is overwritten with the new content; the boolean reports the hit. -/
def process_file (d : List (List Nat × List Nat)) (f c : List Nat) :
    List (List Nat × List Nat) × Bool :=
  if per_file_cached (lookupFile d f) c then (d, true)
  else (updateFile d f c, false)

/-- The whole file loop of `start_of_sim`, threading the disk and the
`written`/`cached` counters (compilation of written files is external
and does not touch the cache files). -/
def write_files : List (List Nat × List Nat) →
    List (List Nat × List Nat) × Nat × Nat →
    List (List Nat × List Nat) × Nat × Nat
  | [], acc => acc
  | (f, c) :: rest, (d, w, ca) =>
    let p := process_file d f c
    write_files rest (p.1, (if p.2 then w else w + 1), (if p.2 then ca + 1 else ca))

/-- Outcome of the external Python generator call as seen through the
CPython API in `call_python_resolver` (resolver.c:1038-1058): an
exception (NULL result), `None`, a non-dict value, or a dict of file
name/content pairs. -/
inductive GenResponse where
  | exception
  | pynone
  | malformed
  | files (fs : List (List Nat × List Nat))

/-- Embedding of `call_python_resolver` (resolver.c:997): `none` models
every NULL return — Python unavailable, empty net list (short-circuited
before dispatch), generator exception, `None` result, or a non-dict
result; only a dict comes back as `some`. -/
def call_python_resolver (pythonOk : Bool) (r : List Net)
    (resp : GenResponse) : Option (List (List Nat × List Nat)) :=
  if pythonOk = false then none
  else if (r.filter (fun n => n.needs_resolution)).isEmpty then none
  else
    match resp with
    | .files fs => some fs
    | _ => none

/-- What one run leaves behind: the cache directory, the nets reported
`UNRESOLVED` by name, the written/cached counters, and whether the run
ran to completion (every path of `start_of_sim` past the hierarchy walk
returns normally). -/
structure RunResult where
  disk : List (List Nat × List Nat)
  unresolved : List (List Nat)
  written : Nat
  cached : Nat
  completed : Bool
deriving DecidableEq, Repr

/-- Embedding of the post-walk phases of `start_of_sim`
(resolver.c:1148-1305): classify, count nets needing resolution and
return early when none; call the generator, and on a NULL result report
every needing net as UNRESOLVED and return with the cache untouched; on
a dict run the per-file cache loop. -/
def start_of_sim_model (r0 : List Net) (pythonOk : Bool) (resp : GenResponse)
    (disk : List (List Nat × List Nat)) : RunResult :=
  let r := analyze_nets r0
  let needing := r.filter (fun n => n.needs_resolution)
  if needing.isEmpty then
    { disk := disk, unresolved := [], written := 0, cached := 0,
      completed := true }
  else
    match call_python_resolver pythonOk r resp with
    | none =>
      { disk := disk, unresolved := needing.map Net.net_name, written := 0,
        cached := 0, completed := true }
    | some files =>
      let res := write_files files (disk, 0, 0)
      { disk := res.1, unresolved := [], written := res.2.1,
        cached := res.2.2, completed := true }

theorem stripNl_cons (c : Nat) (l : List Nat) (hc : c ≠ 10) :
    stripNl (c :: l) = c :: stripNl l := by
  cases l with
  | nil => simp [stripNl, hc]
  | cons d ds => rfl

theorem fgets_strip :
    ∀ (old : List Nat) (n : Nat),
      stripNl (fgetsAux n old) = (old.takeWhile (fun c => c != 10)).take n := by
  intro old
  induction old with
  | nil => intro n; cases n <;> rfl
  | cons c rest ih =>
    intro n
    cases n with
    | zero => rfl
    | succ m =>
      by_cases hc : c = 10
      · subst hc
        simp [fgetsAux, stripNl, List.takeWhile_cons]
      · rw [show fgetsAux (m + 1) (c :: rest) = c :: fgetsAux m rest from by
          simp [fgetsAux, hc]]
        rw [stripNl_cons c _ hc, ih m]
        simp [List.takeWhile_cons, hc]

theorem process_file_snd (d : List (List Nat × List Nat)) (f c : List Nat) :
    (process_file d f c).2 = per_file_cached (lookupFile d f) c := by
  unfold process_file
  split <;> simp_all

theorem lookup_update (d : List (List Nat × List Nat)) (f c : List Nat) :
    lookupFile (updateFile d f c) f = some c := by
  induction d with
  | nil => simp [updateFile, lookupFile]
  | cons kv rest ih =>
    obtain ⟨k, v⟩ := kv
    by_cases hk : k = f
    · simp [updateFile, hk, lookupFile]
    · simp [updateFile, hk, lookupFile, ih]

/-- C5 (amended). An artifact counts as a cache hit iff the existing
file is present, nonempty, and its first line agrees with the new
artifact's first line ON THE FIRST 255 BYTES (both sides pass through a
256-byte line buffer; newline stripped); on a hit the disk is
byte-for-byte untouched, otherwise the file is overwritten with the new
content; the loop counts exactly one `cached` or one `written` per
artifact accordingly. -/
theorem c5_per_file_cache (d : List (List Nat × List Nat)) (f c : List Nat) :
    ((process_file d f c).2 = true ↔
      ∃ old, lookupFile d f = some old ∧ old ≠ [] ∧
        (old.takeWhile (fun b => b != 10)).take 255 =
          (c.takeWhile (fun b => b != 10)).take 255) ∧
    ((process_file d f c).2 = true → (process_file d f c).1 = d) ∧
    ((process_file d f c).2 = false →
      (process_file d f c).1 = updateFile d f c ∧
      lookupFile ((process_file d f c).1) f = some c) ∧
    (∀ w ca : Nat, write_files [(f, c)] (d, w, ca) =
      if (process_file d f c).2 then (d, w, ca + 1)
      else (updateFile d f c, w + 1, ca)) := by
  refine ⟨?_, fun h => ?_, fun h => ?_, fun w ca => ?_⟩
  · rw [process_file_snd]
    unfold per_file_cached
    cases hlk : lookupFile d f with
    | none => simp
    | some old =>
      by_cases hemp : old.isEmpty
      · simp only [hemp, if_true]
        constructor
        · intro hfalse; exact absurd hfalse (by simp)
        · rintro ⟨o, ho, hne, -⟩
          cases ho
          exact absurd (List.isEmpty_iff.mp hemp) hne
      · simp only [hemp, if_false, Bool.false_eq_true]
        rw [fgets_strip]
        constructor
        · intro hbeq
          exact ⟨old, rfl, fun he => hemp (by simp [he]),
            by simpa using hbeq⟩
        · rintro ⟨o, ho, -, heq⟩
          cases ho
          simpa using heq
  · have hb : per_file_cached (lookupFile d f) c = true := by
      rw [← process_file_snd d f c]; exact h
    simp [process_file, hb]
  · have hb : per_file_cached (lookupFile d f) c = false := by
      rw [← process_file_snd d f c]; exact h
    refine ⟨by simp [process_file, hb], ?_⟩
    simp [process_file, hb, lookup_update]
  · unfold write_files
    rw [process_file_snd]
    by_cases hb : per_file_cached (lookupFile d f) c
    · simp only [hb, if_true]
      unfold write_files
      simp [process_file, hb]
    · simp only [hb, if_false]
      unfold write_files
      simp [process_file, hb]

/-- Witness for C5 (amended) at a missing file: the artifact is written
and afterwards the file holds the new content. -/
theorem c5_per_file_cache_witness :
    (process_file [] (cstr ("g.vhd")) (cstr ("x"))).1 =
      updateFile [] (cstr ("g.vhd")) (cstr ("x")) ∧
    lookupFile ((process_file [] (cstr ("g.vhd")) (cstr ("x"))).1)
      (cstr ("g.vhd")) = some (cstr ("x")) :=
  (c5_per_file_cache [] (cstr ("g.vhd")) (cstr ("x"))).2.2.1 (by decide)

/-- An existing cached file whose single line is 256 bytes long. -/
def c5_old : List Nat := List.replicate 256 97

/-- A new artifact whose single line agrees with `c5_old` only on the
first 255 bytes. -/
def c5_new : List Nat := List.replicate 255 97 ++ [98]

set_option maxRecDepth 40000 in
/-- Counterexample for C5 as stated: the leading lines of the existing
file and of the new artifact DIFFER (at byte 256), yet the code counts
a cache hit and leaves the stale file untouched, because both sides of
the comparison are truncated to the 255 bytes that fit the 256-byte
line buffers. -/
theorem c5_truncation_counterexample :
    (process_file [(cstr ("f.vhd"), c5_old)] (cstr ("f.vhd")) c5_new).2 = true ∧
    (process_file [(cstr ("f.vhd"), c5_old)] (cstr ("f.vhd")) c5_new).1 =
      [(cstr ("f.vhd"), c5_old)] ∧
    c5_old.takeWhile (fun b => b != 10) ≠ c5_new.takeWhile (fun b => b != 10) := by
  refine ⟨by decide, by decide, by decide⟩

theorem call_python_resolver_none (pythonOk : Bool) (r : List Net)
    (resp : GenResponse)
    (h : resp = GenResponse.exception ∨ resp = GenResponse.malformed) :
    call_python_resolver pythonOk r resp = none := by
  rcases h with h | h <;> subst h <;> cases pythonOk <;>
    simp [call_python_resolver]

/-- C6. When the generator raises an exception or returns a non-mapping
value, the run modifies no cached artifact, reports every net with
`needs_resolution` as unresolved by name, writes nothing, and still
completes normally. -/
theorem c6_generator_failure (r0 : List Net) (pythonOk : Bool)
    (resp : GenResponse) (disk : List (List Nat × List Nat))
    (h : resp = GenResponse.exception ∨ resp = GenResponse.malformed) :
    (start_of_sim_model r0 pythonOk resp disk).disk = disk ∧
    (start_of_sim_model r0 pythonOk resp disk).unresolved =
      ((analyze_nets r0).filter (fun n => n.needs_resolution)).map
        Net.net_name ∧
    (start_of_sim_model r0 pythonOk resp disk).written = 0 ∧
    (start_of_sim_model r0 pythonOk resp disk).completed = true := by
  have hc := call_python_resolver_none pythonOk (analyze_nets r0) resp h
  unfold start_of_sim_model
  by_cases he :
      ((analyze_nets r0).filter (fun n => n.needs_resolution)).isEmpty
  · have : (analyze_nets r0).filter (fun n => n.needs_resolution) = [] :=
      List.isEmpty_iff.mp he
    simp [he, this]
  · simp [he, hc]

/-- A net that will need resolution, for the C6 witness. -/
def c6_net : Net :=
  { net_name := cstr (".top.ac(2)"),
    endpoints := [{ driver_ename := [], receiver_ename := [], type_name := [] },
                  { driver_ename := [], receiver_ename := [], type_name := [] }],
    needs_resolution := false }

/-- Witness for C6: a generator exception over a one-net registry
leaves the one-file cache untouched and reports that net unresolved. -/
theorem c6_generator_failure_witness :
    (start_of_sim_model [c6_net] true GenResponse.exception
      [(cstr ("f.vhd"), cstr ("v"))]).disk = [(cstr ("f.vhd"), cstr ("v"))] ∧
    (start_of_sim_model [c6_net] true GenResponse.exception
      [(cstr ("f.vhd"), cstr ("v"))]).unresolved =
      ((analyze_nets [c6_net]).filter (fun n => n.needs_resolution)).map
        Net.net_name :=
  ⟨(c6_generator_failure [c6_net] true GenResponse.exception
      [(cstr ("f.vhd"), cstr ("v"))] (Or.inl rfl)).1,
   (c6_generator_failure [c6_net] true GenResponse.exception
      [(cstr ("f.vhd"), cstr ("v"))] (Or.inl rfl)).2.1⟩

/- ---------- Topology fingerprint (claim C4, modelled from the spec) ---------- -/

/-- Modelled from the spec: byte-wise lexicographic order ("sort by
canonical name using byte-wise lexicographic order", §4.6) — the
non-strict comparison. -/
def bytesLe : List Nat → List Nat → Bool
  | [], _ => true
  | _ :: _, [] => false
  | a :: as, b :: bs =>
    if a < b then true else if b < a then false else bytesLe as bs

/-- Strict byte-wise lexicographic order. -/
def bytesLt : List Nat → List Nat → Bool
  | [], [] => false
  | [], _ :: _ => true
  | _ :: _, [] => false
  | a :: as, b :: bs =>
    if a < b then true else if b < a then false else bytesLt as bs

theorem bytesLe_total :
    ∀ a b : List Nat, bytesLe a b = true ∨ bytesLe b a = true := by
  intro a
  induction a with
  | nil => intro b; left; rfl
  | cons x as ih =>
    intro b
    cases b with
    | nil => right; rfl
    | cons y bs =>
      rcases Nat.lt_trichotomy x y with h | h | h
      · left; simp [bytesLe, h]
      · subst h
        rcases ih bs with h2 | h2
        · left; simp [bytesLe, Nat.lt_irrefl, h2]
        · right; simp [bytesLe, Nat.lt_irrefl, h2]
      · right; simp [bytesLe, h]

theorem bytesLe_trans :
    ∀ a b c : List Nat, bytesLe a b = true → bytesLe b c = true →
      bytesLe a c = true := by
  intro a
  induction a with
  | nil => intro b c h1 h2; rfl
  | cons x as ih =>
    intro b c h1 h2
    cases b with
    | nil => simp [bytesLe] at h1
    | cons y bs =>
      cases c with
      | nil => simp [bytesLe] at h2
      | cons z cs =>
        rcases Nat.lt_trichotomy x y with hxy | hxy | hxy
        · rcases Nat.lt_trichotomy y z with hyz | hyz | hyz
          · simp [bytesLe, Nat.lt_trans hxy hyz]
          · subst hyz; simp [bytesLe, hxy]
          · simp [bytesLe, hyz, Nat.lt_asymm hyz] at h2
        · subst hxy
          rcases Nat.lt_trichotomy x z with hyz | hyz | hyz
          · simp [bytesLe, hyz]
          · subst hyz
            simp only [bytesLe, Nat.lt_irrefl, if_false] at h1 h2 ⊢
            exact ih bs cs h1 h2
          · simp [bytesLe, hyz, Nat.lt_asymm hyz] at h2
        · simp [bytesLe, hxy, Nat.lt_asymm hxy] at h1

theorem bytesLt_asymm :
    ∀ a b : List Nat, bytesLt a b = true → bytesLt b a = true → False := by
  intro a
  induction a with
  | nil =>
    intro b h1 h2
    cases b with
    | nil => simp [bytesLt] at h1
    | cons y bs => simp [bytesLt] at h2
  | cons x as ih =>
    intro b h1 h2
    cases b with
    | nil => simp [bytesLt] at h1
    | cons y bs =>
      rcases Nat.lt_trichotomy x y with h | h | h
      · simp [bytesLt, h, Nat.lt_asymm h] at h2
      · subst h
        simp only [bytesLt, Nat.lt_irrefl, if_false] at h1 h2
        exact ih bs h1 h2
      · simp [bytesLt, h, Nat.lt_asymm h] at h1

theorem bytes_lt_of_le_ne :
    ∀ a b : List Nat, bytesLe a b = true → a ≠ b → bytesLt a b = true := by
  intro a
  induction a with
  | nil =>
    intro b h1 h2
    cases b with
    | nil => exact absurd rfl h2
    | cons y bs => rfl
  | cons x as ih =>
    intro b h1 h2
    cases b with
    | nil => simp [bytesLe] at h1
    | cons y bs =>
      rcases Nat.lt_trichotomy x y with h | h | h
      · simp [bytesLt, h]
      · subst h
        simp only [bytesLe, Nat.lt_irrefl, if_false] at h1
        simp only [bytesLt, Nat.lt_irrefl, if_false]
        exact ih bs h1 (fun he => h2 (by rw [he]))
      · simp [bytesLe, h, Nat.lt_asymm h] at h1

/-- Non-strict name order on nets, the sort key of §4.6. -/
def netLe (a b : Net) : Prop := bytesLe a.net_name b.net_name = true

/-- Strict name order on nets. -/
def netLt (a b : Net) : Prop := bytesLt a.net_name b.net_name = true

/-- Modelled from the spec: insertion into a name-sorted list. -/
def insertNet (n : Net) : List Net → List Net
  | [] => [n]
  | m :: ms =>
    if bytesLe n.net_name m.net_name then n :: m :: ms else m :: insertNet n ms

/-- Modelled from the spec: "sort by canonical name using byte-wise
lexicographic order" (§4.6), as an insertion sort. -/
def sortNets : List Net → List Net
  | [] => []
  | n :: ns => insertNet n (sortNets ns)

theorem mem_insertNet :
    ∀ (l : List Net) (n x : Net), x ∈ insertNet n l → x = n ∨ x ∈ l := by
  intro l
  induction l with
  | nil =>
    intro n x hx
    simp [insertNet] at hx
    left; exact hx
  | cons m ms ih =>
    intro n x hx
    unfold insertNet at hx
    cases hb : bytesLe n.net_name m.net_name with
    | true =>
      rw [hb, if_pos rfl] at hx
      rcases List.mem_cons.mp hx with h | h
      · left; exact h
      · right; exact h
    | false =>
      rw [hb] at hx
      simp only [Bool.false_eq_true, if_false] at hx
      rcases List.mem_cons.mp hx with h | h
      · right; simp [h]
      · rcases ih n x h with h2 | h2
        · left; exact h2
        · right; simp [h2]

theorem insertNet_perm :
    ∀ (l : List Net) (n : Net), (insertNet n l).Perm (n :: l) := by
  intro l
  induction l with
  | nil => intro n; exact List.Perm.refl _
  | cons m ms ih =>
    intro n
    unfold insertNet
    cases hb : bytesLe n.net_name m.net_name with
    | true => rw [if_pos rfl]
    | false =>
      simp only [Bool.false_eq_true, if_false]
      exact (List.Perm.cons m (ih n)).trans (List.Perm.swap n m ms)

theorem sortNets_perm : ∀ l : List Net, (sortNets l).Perm l := by
  intro l
  induction l with
  | nil => exact List.Perm.refl _
  | cons n ns ih =>
    exact (insertNet_perm (sortNets ns) n).trans (List.Perm.cons n ih)

theorem pairwise_insertNet :
    ∀ (l : List Net) (n : Net), l.Pairwise netLe →
      (insertNet n l).Pairwise netLe := by
  intro l
  induction l with
  | nil => intro n _; simp [insertNet]
  | cons m ms ih =>
    intro n h
    rw [List.pairwise_cons] at h
    unfold insertNet
    cases hb : bytesLe n.net_name m.net_name with
    | true =>
      rw [if_pos rfl, List.pairwise_cons]
      refine ⟨?_, List.pairwise_cons.mpr ⟨h.1, h.2⟩⟩
      intro x hx
      rcases List.mem_cons.mp hx with rfl | hxm
      · exact hb
      · exact bytesLe_trans _ _ _ hb (h.1 x hxm)
    | false =>
      simp only [Bool.false_eq_true, if_false]
      rw [List.pairwise_cons]
      refine ⟨?_, ih n h.2⟩
      intro x hx
      rcases mem_insertNet ms n x hx with rfl | hxm
      · rcases bytesLe_total x.net_name m.net_name with h2 | h2
        · exact absurd h2 (by simp [hb])
        · exact h2
      · exact h.1 x hxm

theorem sortNets_sorted : ∀ l : List Net, (sortNets l).Pairwise netLe := by
  intro l
  induction l with
  | nil => exact List.Pairwise.nil
  | cons n ns ih => exact pairwise_insertNet (sortNets ns) n ih

theorem pairwise_lt_of_le_nodup (l : List Net)
    (h1 : l.Pairwise netLe) (h2 : (l.map Net.net_name).Nodup) :
    l.Pairwise netLt := by
  have h3 : l.Pairwise (fun a b => a.net_name ≠ b.net_name) :=
    List.pairwise_map.mp h2
  exact (h1.and h3).imp (fun hab => bytes_lt_of_le_ne _ _ hab.1 hab.2)

theorem sorted_lt_unique :
    ∀ l1 l2 : List Net, l1.Perm l2 → l1.Pairwise netLt →
      l2.Pairwise netLt → l1 = l2 := by
  intro l1
  induction l1 with
  | nil =>
    intro l2 hp _ _
    exact (hp.symm.eq_nil).symm
  | cons a t1 ih =>
    intro l2 hp hpw1 hpw2
    cases l2 with
    | nil =>
      have := hp.eq_nil
      simp at this
    | cons b t2 =>
      by_cases hab : a = b
      · subst hab
        rw [ih t2 hp.cons_inv (List.pairwise_cons.mp hpw1).2
          (List.pairwise_cons.mp hpw2).2]
      · exfalso
        have hbmem : b ∈ a :: t1 := hp.symm.subset (List.mem_cons_self b t2)
        have hamem : a ∈ b :: t2 := hp.subset (List.mem_cons_self a t1)
        have hb1 : b ∈ t1 := by
          rcases List.mem_cons.mp hbmem with h | h
          · exact absurd h.symm hab
          · exact h
        have ha2 : a ∈ t2 := by
          rcases List.mem_cons.mp hamem with h | h
          · exact absurd h hab
          · exact h
        exact bytesLt_asymm _ _ ((List.pairwise_cons.mp hpw1).1 b hb1)
          ((List.pairwise_cons.mp hpw2).1 a ha2)

/-- Modelled from the spec: the decimal digits of a count, for the
textual encoding of §4.6. -/
def natAscii (k : Nat) : List Nat := (Nat.toDigits 10 k).map Char.toNat

/-- Modelled from the spec: the per-net textual encoding
`name:type-or-endpoint-summary:length-or-endpoint-count` of §4.6
(byte 58 is the `:` separator). -/
def netEncoding (n : Net) : List Nat :=
  n.net_name ++ 58 ::
    ((n.endpoints.map (fun e => e.type_name)).foldl (fun a b => a ++ b) []) ++
    58 :: natAscii n.endpoints.length

/-- Modelled from the spec: fold one encoding into the running
djb2-style hash (multiplier 33, accumulate byte values, §4.6). -/
def djb2 (h : Nat) (l : List Nat) : Nat := l.foldl (fun h b => h * 33 + b) h

/-- Modelled from the spec: `TopologyFingerprint` (§4.6).  This
computation lives in the external Python generator (the "net hash
comment" of resolver.c:1207), not in the C plugin under src; it is
modelled here faithfully from the spec's words: collect the nets with
`needs_resolution`, sort by canonical name byte-wise, fold each
encoding into a hash seeded with 5381, and return 0 when there is
nothing to do. -/
def fingerprint (r : List Net) : Nat :=
  let needing := r.filter (fun n => n.needs_resolution)
  if needing.isEmpty then 0
  else ((sortNets needing).map netEncoding).foldl djb2 5381

/-- Modelled from the spec: the whole-design cache decision (§4.7) —
generation is skipped exactly when the stored fingerprint equals the
freshly computed one. -/
def whole_design_generation_needed (stored : Option Nat) (fresh : Nat) : Bool :=
  match stored with
  | some s => s != fresh
  | none => true

theorem le_djb2 : ∀ (l : List Nat) (h : Nat), h ≤ djb2 h l := by
  intro l
  induction l with
  | nil => intro h; exact le_refl h
  | cons b bs ih =>
    intro h
    have h1 : h ≤ h * 33 + b := by
      have : h * 1 ≤ h * 33 := Nat.mul_le_mul_left h (by norm_num)
      omega
    exact le_trans h1 (ih (h * 33 + b))

theorem le_foldl_djb2 :
    ∀ (es : List (List Nat)) (h : Nat), h ≤ es.foldl djb2 h := by
  intro es
  induction es with
  | nil => intro h; exact le_refl h
  | cons e es ih =>
    intro h
    exact le_trans (le_djb2 e h) (ih (djb2 h e))

theorem perm_isEmpty {l m : List Net} (h : l.Perm m) : l.isEmpty = m.isEmpty := by
  have hl := h.length_eq
  cases l <;> cases m <;> simp_all

/-- C4. The topology fingerprint is deterministic and order-independent:
over two registries holding the same nets in any discovery order (with
the distinct canonical names a registry guarantees) it computes the
same value; it is 0 exactly when no net needs resolution; and a stored
whole-design fingerprint equal to the fresh one makes the cache skip
generation. -/
theorem c4_fingerprint (r1 r2 : List Net) (hperm : r1.Perm r2)
    (hnd : ((r1.filter (fun n => n.needs_resolution)).map Net.net_name).Nodup) :
    fingerprint r1 = fingerprint r2 ∧
    (fingerprint r1 = 0 ↔ r1.filter (fun n => n.needs_resolution) = []) ∧
    whole_design_generation_needed (some (fingerprint r1)) (fingerprint r2) =
      false := by
  have hf : (r1.filter (fun n => n.needs_resolution)).Perm
      (r2.filter (fun n => n.needs_resolution)) := hperm.filter _
  have hnd2 : ((r2.filter (fun n => n.needs_resolution)).map Net.net_name).Nodup :=
    (hf.map Net.net_name).nodup hnd
  have hp1 := sortNets_perm (r1.filter (fun n => n.needs_resolution))
  have hp2 := sortNets_perm (r2.filter (fun n => n.needs_resolution))
  have hnds1 : ((sortNets (r1.filter (fun n => n.needs_resolution))).map
      Net.net_name).Nodup := ((hp1.map Net.net_name).symm).nodup hnd
  have hnds2 : ((sortNets (r2.filter (fun n => n.needs_resolution))).map
      Net.net_name).Nodup := ((hp2.map Net.net_name).symm).nodup hnd2
  have heq : sortNets (r1.filter (fun n => n.needs_resolution)) =
      sortNets (r2.filter (fun n => n.needs_resolution)) :=
    sorted_lt_unique _ _ (hp1.trans (hf.trans hp2.symm))
      (pairwise_lt_of_le_nodup _ (sortNets_sorted _) hnds1)
      (pairwise_lt_of_le_nodup _ (sortNets_sorted _) hnds2)
  have hie : (r1.filter (fun n => n.needs_resolution)).isEmpty =
      (r2.filter (fun n => n.needs_resolution)).isEmpty := perm_isEmpty hf
  have hmain : fingerprint r1 = fingerprint r2 := by
    simp only [fingerprint]
    rw [heq, hie]
  refine ⟨hmain, ?_, ?_⟩
  · constructor
    · intro h0
      by_contra hne
      have hemp : (r1.filter (fun n => n.needs_resolution)).isEmpty = false := by
        cases hfe : r1.filter (fun n => n.needs_resolution) with
        | nil => exact absurd hfe hne
        | cons a l => rfl
      simp only [fingerprint, hemp, Bool.false_eq_true, if_false] at h0
      have := le_foldl_djb2
        ((sortNets (r1.filter (fun n => n.needs_resolution))).map netEncoding)
        5381
      omega
    · intro h
      simp [fingerprint, h]
  · simp [whole_design_generation_needed, hmain]

/-- Two one-net registries in swapped discovery order, for the C4
witness. -/
def c4_netA : Net :=
  { net_name := cstr (".top.a"),
    endpoints := [{ driver_ename := [], receiver_ename := [], type_name := [] },
                  { driver_ename := [], receiver_ename := [], type_name := [] }],
    needs_resolution := true }

/-- Second net for the C4 witness. -/
def c4_netB : Net :=
  { net_name := cstr (".top.b"),
    endpoints := [{ driver_ename := [], receiver_ename := [], type_name := [] },
                  { driver_ename := [], receiver_ename := [], type_name := [] }],
    needs_resolution := true }

/-- Witness for C4: the fingerprint of `[A, B]` equals that of
`[B, A]`, and a matching stored fingerprint disables generation. -/
theorem c4_fingerprint_witness :
    fingerprint [c4_netA, c4_netB] = fingerprint [c4_netB, c4_netA] ∧
    whole_design_generation_needed (some (fingerprint [c4_netA, c4_netB]))
      (fingerprint [c4_netB, c4_netA]) = false :=
  ⟨(c4_fingerprint [c4_netA, c4_netB] [c4_netB, c4_netA]
      (List.Perm.swap c4_netB c4_netA []) (by decide)).1,
   (c4_fingerprint [c4_netA, c4_netB] [c4_netB, c4_netA]
      (List.Perm.swap c4_netB c4_netA []) (by decide)).2.2⟩
